import Mathlib

/-!
Verification of the Fedora → ResearchSpace / ResearchSpace → Omeka S migration
pipeline (`fedora_to_rspace/metadata_manager.py`, `rspace_to_omekas/*.py`).

The Python code is shallowly embedded: RDF terms become an inductive `Term`
(modelling `rdflib.term.Identifier` instances: URIRefs and Literals), a graph
is the list of its triples in iteration order, rules are records mirroring the
dicts produced by `load_rules`, and the crawler is an explicit fuel-indexed
state machine whose filesystem writes are collected as `(filename, content)`
pairs in a trace of flush events.
-/

namespace ThesisWorkflow

/-- Python helper: `s.rstrip(c)` for a single strip character. -/
def pyRstrip (s : String) (c : Char) : String :=
  String.mk ((s.toList.reverse.dropWhile (fun x => x == c)).reverse)

/-- Python helper: `s.lstrip(c)` for a single strip character. -/
def pyLstrip (s : String) (c : Char) : String :=
  String.mk (s.toList.dropWhile (fun x => x == c))

/-- Python helper: `s.strip(c)` (both ends) for a single strip character. -/
def pyStrip (s : String) (c : Char) : String :=
  pyLstrip (pyRstrip s c) c

/-- Python helper: `s.strip()` — strip whitespace from both ends. -/
def pyTrim (s : String) : String :=
  String.mk (((s.data.dropWhile Char.isWhitespace).reverse.dropWhile Char.isWhitespace).reverse)

/-- Python helper: `s.rstrip()` — strip trailing whitespace. -/
def pyTrimRight (s : String) : String :=
  String.mk ((s.data.reverse.dropWhile Char.isWhitespace).reverse)

/-- Python helper: `s.lstrip()` — strip leading whitespace. -/
def pyTrimLeft (s : String) : String :=
  String.mk (s.data.dropWhile Char.isWhitespace)

/-- Python helper: `s.endswith(suffixStr)`, as a suffix test on the
character lists (semantically equal to CPython's `str.endswith`). -/
def pyEndsWith (s suffixStr : String) : Bool :=
  suffixStr.data.isSuffixOf s.data

/-- Worker for `pySplit`: split a character list on a non-empty separator,
left to right; the fuel argument (instantiated with the list length) makes
the recursion structural. -/
def pySplitGo (sep : List Char) : Nat → List Char → List (List Char)
  | _, [] => [[]]
  | 0, l => [l]
  | fuel + 1, c :: cs =>
    if sep.isPrefixOf (c :: cs) then
      [] :: pySplitGo sep fuel ((c :: cs).drop sep.length)
    else
      match pySplitGo sep fuel cs with
      | [] => [[c]]
      | seg :: rest => (c :: seg) :: rest

/-- Python helper: `s.split(sep)` for a non-empty separator substring
(CPython raises on an empty separator; no call site uses one). -/
def pySplit (s sep : String) : List String :=
  if sep.data.isEmpty then [s]
  else (pySplitGo sep.data s.data.length s.data).map String.mk

/-- Worker for `pyReplace`: replace every non-overlapping occurrence of a
non-empty pattern, scanning left to right, with fuel for structural
recursion. -/
def pyReplaceGo (pat rep : List Char) : Nat → List Char → List Char
  | _, [] => []
  | 0, l => l
  | fuel + 1, c :: cs =>
    if pat.isPrefixOf (c :: cs) then
      rep ++ pyReplaceGo pat rep fuel ((c :: cs).drop pat.length)
    else
      c :: pyReplaceGo pat rep fuel cs

/-- Python helper: `s.replace(pat, rep)` for a non-empty pattern (every call
site of the source uses a non-empty pattern). -/
def pyReplace (s pat rep : String) : String :=
  if pat.data.isEmpty then s
  else String.mk (pyReplaceGo pat.data rep.data s.data.length s.data)

/-- An RDF term as delivered by iterating an `rdflib.Graph`: every term of a
parsed graph is an `rdflib.term.Identifier` (URIRef or Literal), so the
`isinstance` guard in `apply_rules` always succeeds on graph-derived terms.
Blank nodes are not needed by any claim and are omitted. -/
inductive Term where
  | uri (u : String)
  | lit (v : String)
  deriving DecidableEq

/-- Python `str(term)`: the lexical form without any serialization syntax. -/
def Term.toStr : Term → String
  | .uri u => u
  | .lit v => v

/-- Model of `term.n3()`: URIs in angle brackets, plain literals quoted (datatype and
language tags are not exercised by the source data modelled here). -/
def Term.n3 : Term → String
  | .uri u => "<" ++ u ++ ">"
  | .lit v => "\"" ++ v ++ "\""

/-- One `(s, p, o)` triple of a source graph. -/
structure Triple where
  s : Term
  p : Term
  o : Term
  deriving DecidableEq

/-- A transformation rule as used by `apply_rules`: the §3 data-model record
`{id, predicate, object_equals, template}` with the two required fields
present (`load_rules` can also produce rules with missing fields; that
behaviour is modelled separately by `RawRule`/`load_rules` below). -/
structure Rule where
  id : Option String
  predicate : String
  object_equals : Option String
  template : String
  deriving DecidableEq

def ebucoreFilenameURI : String :=
  "http://www.ebu.ch/metadata/ontologies/ebucore/ebucore#filename"

def ebucoreMimeURI : String :=
  "http://www.ebu.ch/metadata/ontologies/ebucore/ebucore#hasMimeType"

def containsURI : String := "http://www.w3.org/ns/ldp#contains"

/-- Model of `_derive_filename_from_uri(subject_uri)`: split on `/repo/rest/`, take the
last part, flatten path separators to `!`, and force a `.jpg` extension on
both the flattened and the simple (last-segment) name. -/
def derive_filename_from_uri (subject_uri : String) : String × String :=
  let rel_path := (pySplit subject_uri "/repo/rest/").getLastD ""
  let flat_path := pyReplace rel_path "/" "!"
  let simple_name := (pySplit rel_path "/").getLastD ""
  (flat_path ++ ".jpg", simple_name ++ ".jpg")

/-- The guard of the `ebucore:filename` special case in `apply_rules`:
`p_str == ...#filename` and (`not o_str` or `o_str.strip().strip('"') == ""`).
For graph-derived terms `o_str` is always `str(o)`, so `not o_str` means the
empty string. -/
def intercepted (t : Triple) : Bool :=
  t.p.toStr == ebucoreFilenameURI &&
    (t.o.toStr == "" || pyStrip (pyTrim t.o.toStr) '"' == "")

/-- The two synthetic lines emitted by the filename special case. -/
def filenameLines (t : Triple) : List String :=
  let fn := derive_filename_from_uri t.s.toStr
  [t.s.n3 ++ " ex:PX_has_file_name \"" ++ fn.1 ++ "\" .",
   t.s.n3 ++ " rdfs:label \"" ++ fn.2 ++ "\" ."]

/-- The `exact` filter of `apply_rules`: rules whose predicate equals `p_str`
and whose `object_equals` equals the object's string form. -/
def exactMatches (rules : List Rule) (p_str o_str : String) : List Rule :=
  rules.filter (fun r => r.predicate == p_str && r.object_equals == some o_str)

/-- The `loose` filter of `apply_rules`: rules whose predicate equals `p_str`
and whose `object_equals` is null. -/
def looseMatches (rules : List Rule) (p_str : String) : List Rule :=
  rules.filter (fun r => r.predicate == p_str && r.object_equals == none)

/-- Template expansion: replace `?s` and `?o` by the terms' n3 forms and trim
trailing whitespace (`.rstrip()`). -/
def expandRule (t : Triple) (r : Rule) : String :=
  pyTrimRight (pyReplace (pyReplace r.template "?s" t.s.n3) "?o" t.o.n3)

/-- Verbatim passthrough line for a triple matched by no rule. -/
def passthroughLine (t : Triple) : String :=
  t.s.n3 ++ " " ++ t.p.n3 ++ " " ++ t.o.n3 ++ " ."

/-- The selection `picked = exact or loose`: the exact matches when any exist, otherwise
the loose matches. -/
def pickedRules (rules : List Rule) (t : Triple) : List Rule :=
  if (exactMatches rules t.p.toStr t.o.toStr).isEmpty then looseMatches rules t.p.toStr
  else exactMatches rules t.p.toStr t.o.toStr

/-- The `if picked: ... else:` tail of the loop body: one expanded line per
picked rule, or the verbatim passthrough line when no rule matched. -/
def pickedLines (rules : List Rule) (t : Triple) : List String :=
  if (pickedRules rules t).isEmpty then [passthroughLine t]
  else (pickedRules rules t).map (expandRule t)

/-- The body of the per-triple loop of `apply_rules`. -/
def processTriple (rules : List Rule) (t : Triple) : List String :=
  if intercepted t then filenameLines t
  else pickedLines rules t

/-- The mime-type pre-scan of `apply_rules` (computed but unused by the rest
of the function; kept for fidelity to the source). -/
def mime_lookup (src : List Triple) : List (String × String) :=
  src.filterMap (fun t =>
    if t.p.toStr == ebucoreMimeURI then some (t.s.toStr, t.o.toStr) else none)

/-- Model of `apply_rules(src, rules)`: the transformer's output lines, in the
iteration order of the source triples. -/
def apply_rules : List Triple → List Rule → List String
  | [], _ => []
  | t :: ts, rules => processTriple rules t ++ apply_rules ts rules

/-- Concrete rules for witnesses: a loose and an exact rule on predicate P. -/
def rules0 : List Rule :=
  [⟨some "r1", "P", none, "A ?s ?o"⟩, ⟨some "r2", "P", some "X", "B ?s ?o"⟩]

/-- Concrete triple for witnesses: `(s, P, "X")`. -/
def t0 : Triple := ⟨Term.uri "s", Term.uri "P", Term.lit "X"⟩

/-- One entry of the `rules:` collection of the YAML rule catalogue, with
every field optional, exactly as `r.get(...)` sees it. -/
structure RawRule where
  id : Option String
  source_predicate : Option String
  object_equals : Option String
  target_pattern : Option String
  deriving DecidableEq

/-- One normalized rule dict as built by `load_rules`: each field is the
result of `r.get(...)`, hence still optional. -/
structure LoadedRule where
  id : Option String
  predicate : Option String
  object_equals : Option String
  template : Option String
  deriving DecidableEq

/-- The parsed YAML rule-list document: `rules` is present or absent
(`data["rules"]` raises `KeyError` when absent). -/
structure RulesDoc where
  rules : Option (List RawRule)

/-- Model of `load_rules(path)` after YAML parsing: `data["rules"]` (a `KeyError` when
the key is missing, modelled as `Except.error`), then one normalized record
per rule via `r.get(...)` — missing per-rule fields are NOT rejected, they
become `None`. -/
def load_rules (doc : RulesDoc) : Except String (List LoadedRule) :=
  match doc.rules with
  | none => .error "KeyError: rules"
  | some rs => .ok (rs.map (fun r =>
      { id := r.id, predicate := r.source_predicate,
        object_equals := r.object_equals, template := r.target_pattern }))

/-- Whether `main` reaches the `crawl(...)` call for a given rule document:
`main` runs `load_rules` before `crawl`, so crawling happens iff loading
succeeded. -/
def crawlReached (doc : RulesDoc) : Bool :=
  match load_rules doc with
  | .ok _ => true
  | .error _ => false

/-- A rule document whose single rule lacks every field, in particular the
required `source_predicate` and `target_pattern`. -/
def docMissingFields : RulesDoc := ⟨some [⟨none, none, none, none⟩]⟩

/-- Result of `attach_media`: the Python function returns the string
`"skipped"` or the booleans `True` / `False`. -/
inductive AttachResult where
  | skipped
  | ok
  | failed
  deriving DecidableEq

/-- Outcome of the `requests.get(...?embed=media)` call inside
`attach_media`: a response with a status code and whether the JSON body has a
non-empty `o:media` list, or a raised exception (covers connection and JSON
errors — both land in the same `except` branch). -/
inductive CheckOutcome where
  | resp (status : Nat) (mediaNonempty : Bool)
  | exn
  deriving DecidableEq

/-- What one `attach_media` call did: its return value, the `_checked_items`
cache afterwards, and which HTTP requests it issued. -/
structure AttachOutcome where
  result : AttachResult
  cache : List (Nat × Bool)
  checkIssued : Bool
  uploadIssued : Bool
  deriving DecidableEq

/-- Model of `attach_media(apiURL, params, item_id, filepath, title)` with the
external world (media-check response, file existence, upload status) passed
as oracles and the module-global `_checked_items` dict as an association
list. `False` in the cache means "skip this item" (already has media, or the
check failed); `True` means "no media yet, proceed". -/
def attach_media (check : CheckOutcome) (fileExists : Bool) (uploadStatus : Nat)
    (cache : List (Nat × Bool)) (item_id : Nat) : AttachOutcome :=
  let checkNeeded := (cache.lookup item_id).isNone
  let cache' :=
    if checkNeeded then
      match check with
      | .resp 200 true => (item_id, false) :: cache
      | .resp 200 false => (item_id, true) :: cache
      | .resp _ _ => (item_id, false) :: cache
      | .exn => (item_id, false) :: cache
    else cache
  if !((cache'.lookup item_id).getD false) then
    ⟨.skipped, cache', checkNeeded, false⟩
  else if !fileExists then
    ⟨.skipped, cache', checkNeeded, false⟩
  else if uploadStatus == 200 || uploadStatus == 201 then
    ⟨.ok, cache', checkNeeded, true⟩
  else
    ⟨.failed, cache', checkNeeded, true⟩

/-- The `root:` section of the Field-Mapping Spec (query dialect). -/
structure RootSpec where
  subject_var : String
  cls : String
  order_by : Option String

/-- The `select:` sub-record of one field. -/
structure SelectSpec where
  expr : String
  asVar : String

/-- One entry of the `fields:` list: `whereParts` models the optional
`where:` key (absent, or a possibly empty list of pattern strings), and
`required` models `f.get("required", False)`. -/
structure FieldSpec where
  sel : SelectSpec
  whereParts : Option (List String)
  required : Bool

/-- The whole Field-Mapping Spec consumed by `build_sparql`. -/
structure QueryRules where
  prefixes : List (String × String)
  root : RootSpec
  fields : List FieldSpec

/-- The `for f in rules["fields"]` loop of `build_sparql`, accumulating the
`select_parts` and `where_parts` lists exactly as the Python loop appends to
them: every field appends one aliased select expression; a field with a
truthy `where` list appends its joined patterns, inline when `required`,
wrapped in `OPTIONAL \x7b ... \x7d` otherwise. -/
def fieldAccum : List FieldSpec → List String × List String → List String × List String
  | [], acc => acc
  | f :: fs, acc =>
    let sp := acc.1 ++ ["(" ++ f.sel.expr ++ " AS " ++ f.sel.asVar ++ ")"]
    let wp :=
      match f.whereParts with
      | some ws =>
        if ws.isEmpty then acc.2
        else if f.required then acc.2 ++ [String.intercalate "\n    " ws]
        else acc.2 ++ ["OPTIONAL \x7b\n    " ++ String.intercalate "\n    " ws ++ "\n\x7d"]
      | none => acc.2
    fieldAccum fs (sp, wp)

/-- Model of `build_sparql(rules)`: renders the SELECT query string. -/
def build_sparql (rules : QueryRules) : String :=
  let pfx := String.intercalate "\n"
    (rules.prefixes.map (fun kv => "PREFIX " ++ kv.1 ++ ": <" ++ kv.2 ++ ">"))
  let s := rules.root.subject_var
  let parts := fieldAccum rules.fields ([s], [s ++ " a " ++ rules.root.cls ++ " ."])
  pfx ++ "\n\nSELECT " ++ String.intercalate " " parts.1
      ++ "\nWHERE \x7b\n  " ++ String.intercalate "\n  " parts.2
      ++ "\n\x7d\nGROUP BY " ++ s
      ++ "\nORDER BY " ++ (rules.root.order_by.getD s) ++ "\n"

/-- Specification-side reading of one field's select contribution (from the
spec: "each field contributes a select expression (aliased)"). -/
def specFieldSelect (f : FieldSpec) : String :=
  "(" ++ f.sel.expr ++ " AS " ++ f.sel.asVar ++ ")"

/-- Specification-side reading of one field's graph-pattern contribution
(from the spec: required patterns inline, optional ones wrapped in an
OPTIONAL block, nothing for fields without where-patterns). -/
def specFieldWhere (f : FieldSpec) : Option String :=
  match f.whereParts with
  | some ws =>
    if ws.isEmpty then none
    else if f.required then some (String.intercalate "\n    " ws)
    else some ("OPTIONAL \x7b\n    " ++ String.intercalate "\n    " ws ++ "\n\x7d")
  | none => none

/-- Model of `fetch_rdf(uri, session)` with the network as an oracle
`download : uri → Option graph` (`none` models a raised `NotRDF` /
`requests.HTTPError`): on primary failure, retry `uri.rstrip("/") +
"/fcr:metadata"` unless the URI already ends with the metadata suffix;
the returned pair carries the effective fetch URI. -/
def fetch_rdf (download : String → Option (List Triple)) (uri : String) :
    Option (List Triple × String) :=
  match download uri with
  | some g => some (g, uri)
  | none =>
    if pyEndsWith (pyRstrip uri '/') "fcr:metadata" then none
    else
      match download (pyRstrip uri '/' ++ "/fcr:metadata") with
      | some g => some (g, pyRstrip uri '/' ++ "/fcr:metadata")
      | none => none

/-- The provenance comment line appended to the source buffer per resource:
`# Source 👉 {uri} ({len(g_src)} triples)`. -/
def srcComment (uri : String) (g : List Triple) : String :=
  "# Source 👉 " ++ uri ++ " (" ++ toString g.length ++ " triples)"

/-- Abstract model of `g_src.serialize(format="turtle")` (an external rdflib
call): one serialized line per triple of the graph. -/
def turtleSerialize (g : List Triple) : String :=
  String.intercalate "\n" (g.map passthroughLine)

/-- Python `"%03d" % n`. -/
def zeroPad3 (n : Nat) : String :=
  if n < 10 then "00" ++ toString n
  else if n < 100 then "0" ++ toString n
  else toString n

/-- The fixed prefix block prepended to every `.rq` file (already dedented in
the source module). -/
def PREFIX_BLOCK : String :=
  "\nPREFIX crm: <http://www.cidoc-crm.org/cidoc-crm/>\n" ++
  "PREFIX dig: <http://www.cidoc-crm.org/cidoc-crm-dig/>\n" ++
  "PREFIX rdf: <http://www.w3.org/1999/02/22-rdf-syntax-ns#>\n" ++
  "PREFIX rdfs: <http://www.w3.org/2000/01/rdf-schema#>\n" ++
  "PREFIX skos: <http://www.w3.org/2004/02/skos/core#>\n" ++
  "PREFIX ex:  <http://www.researchspace.org/ontology/>\n" ++
  "PREFIX prov: <http://www.w3.org/ns/prov#>\n" ++
  "PREFIX ldp: <http://www.w3.org/ns/ldp#>\n"

/-- Python `textwrap.indent(s, ' ' * 12)`: prefix twelve spaces to every line that
is not whitespace-only. -/
def pyIndent12 (s : String) : String :=
  String.intercalate "\n"
    ((pySplit s "\n").map (fun l =>
      if pyTrim l == "" then l else "            " ++ l))

/-- The `.rq` content built by `flush_chunk`: the f-string with the prefix
block, the `INSERT DATA`/`GRAPH` envelope and the indented triples. The
surrounding `textwrap.dedent` is a no-op because the interpolated prefix
block already contains column-zero lines. -/
def sparqlEnvelope (graph_uri trig_content : String) : String :=
  PREFIX_BLOCK ++ "\n        INSERT DATA \x7b \n            GRAPH <" ++ graph_uri
    ++ "> \x7b\n        " ++ pyIndent12 trig_content
    ++ "\n            \x7d\n        \x7d;\n        "

/-- Model of `flush_chunk(src_blocks, tgt_triples, out_dir, idx, graph_uri)`: returns
the `(filename, content)` pairs written — nothing at all when the target
buffer is empty, otherwise the `.ttl` source snapshot, the `.trig` triple
list and the `.rq` INSERT wrapper for the same triples. -/
def flush_chunk (src_blocks tgt_triples : List String) (idx : Nat)
    (graph_uri : String) : List (String × String) :=
  if tgt_triples.isEmpty then []
  else
    let trig_content := String.intercalate "\n" tgt_triples
    [("source-" ++ zeroPad3 idx ++ ".ttl", String.intercalate "\n\n" src_blocks),
     ("dataset-" ++ zeroPad3 idx ++ ".trig", trig_content),
     ("insert-" ++ zeroPad3 idx ++ ".rq", sparqlEnvelope graph_uri trig_content)]

/-- Recover the triple lines embedded in an `.rq` file: the lines strictly
between the `GRAPH` line and the closing brace line, with their indentation
stripped. -/
def embeddedTriples (content : String) : List String :=
  let ls := pySplit content "\n"
  let afterGraph := (ls.dropWhile (fun l => (pySplit l "GRAPH").length == 1)).drop 1
  (afterGraph.takeWhile (fun l => pyTrim l != "\x7d")).map pyTrimLeft

/-- One call of `flush_chunk` as observed by the crawl: the chunk index and
the buffers passed in, the processed-counter value at the call, and the files
the call wrote (empty when the target buffer was empty). -/
structure FlushEvent where
  idx : Nat
  processedAt : Nat
  src_blocks : List String
  tgt : List String
  files : List (String × String)
  deriving DecidableEq

/-- The mutable state of the `crawl` loop. `fetched` records each successful
`(requested, effective)` fetch pair (the crawl logs every fetch) and `events`
the flush calls; both model the crawl's observable behaviour. -/
structure CrawlState where
  queue : List String
  processed : Nat
  chunk_idx : Nat
  src_buf : List String
  tgt_buf : List String
  file_urls : List String
  fetched : List (String × String)
  events : List FlushEvent
  deriving DecidableEq

/-- The body of one `while` iteration of `crawl` on a dequeued `uri` (with
`rest` the remaining queue): fetch (skipping the resource on failure),
enqueue every object of an `ldp:contains` triple, append to the source and
target buffers, count the resource, record a binary-resource URL when the
effective URI ends with `/fcr:metadata` (stripping that suffix — under this
guard `rsplit("/fcr:metadata", 1)[0]` is the string minus its suffix), and
flush when the processed counter reaches a multiple of the chunk size. -/
def crawlStep (download : String → Option (List Triple)) (rules : List Rule)
    (chunk : Nat) (graph_uri : String) (uri : String) (rest : List String)
    (st : CrawlState) : CrawlState :=
  match fetch_rdf download uri with
  | none => { st with queue := rest }
  | some (g, final_uri) =>
    let st1 : CrawlState :=
      { queue := rest ++ (g.filter (fun t => t.p == Term.uri containsURI)).map
          (fun t => t.o.toStr),
        processed := st.processed + 1,
        chunk_idx := st.chunk_idx,
        src_buf := st.src_buf ++ [srcComment uri g, turtleSerialize g],
        tgt_buf := st.tgt_buf ++ apply_rules g rules,
        file_urls :=
          if pyEndsWith final_uri "/fcr:metadata" then
            st.file_urls ++ [final_uri.dropRight "/fcr:metadata".length]
          else st.file_urls,
        fetched := st.fetched ++ [(uri, final_uri)],
        events := st.events }
    if st1.processed % chunk == 0 then
      { st1 with
        events := st1.events ++
          [{ idx := st1.chunk_idx, processedAt := st1.processed,
             src_blocks := st1.src_buf, tgt := st1.tgt_buf,
             files := flush_chunk st1.src_buf st1.tgt_buf st1.chunk_idx graph_uri }],
        src_buf := [], tgt_buf := [], chunk_idx := st1.chunk_idx + 1 }
    else st1

/-- The `while queue and (max_res == 0 or processed < max_res)` loop, made
total with a fuel argument: `none` means the fuel ran out while the loop
condition still held (the loop is still running). -/
def crawlLoop (download : String → Option (List Triple)) (rules : List Rule)
    (chunk : Nat) (graph_uri : String) (max_res : Nat) :
    Nat → CrawlState → Option CrawlState
  | 0, st =>
    match st.queue with
    | [] => some st
    | _ :: _ => if max_res == 0 || st.processed < max_res then none else some st
  | fuel + 1, st =>
    match st.queue with
    | [] => some st
    | uri :: rest =>
      if max_res == 0 || st.processed < max_res then
        crawlLoop download rules chunk graph_uri max_res fuel
          (crawlStep download rules chunk graph_uri uri rest st)
      else some st

/-- The observable outcome of a finished crawl: counters, the flush trace
(including the unconditional final flush), the binary-resource URLs, and the
content of `files.txt` when it was written. -/
structure CrawlResult where
  processed : Nat
  chunk_idx : Nat
  file_urls : List String
  fetched : List (String × String)
  events : List FlushEvent
  filesTxt : Option String
  deriving DecidableEq

/-- The initial crawl state: a queue holding the single seed URI
`f"{base.rstrip('/')}/{root.lstrip('/')}"`. -/
def initState (base root : String) : CrawlState :=
  { queue := [pyRstrip base '/' ++ "/" ++ pyLstrip root '/'],
    processed := 0, chunk_idx := 1, src_buf := [], tgt_buf := [],
    file_urls := [], fetched := [], events := [] }

/-- Model of `crawl(base, root, rules, out, chunk, session, max_res, graph_uri)`:
run the loop, then always perform one final flush and write `files.txt`
iff any binary-resource URL was collected. `none` = the loop was still
running when the fuel ran out. -/
def crawl (download : String → Option (List Triple)) (base root : String)
    (rules : List Rule) (chunk max_res : Nat) (graph_uri : String)
    (fuel : Nat) : Option CrawlResult :=
  match crawlLoop download rules chunk graph_uri max_res fuel (initState base root) with
  | none => none
  | some st =>
    some { processed := st.processed, chunk_idx := st.chunk_idx,
           file_urls := st.file_urls, fetched := st.fetched,
           events := st.events ++
             [{ idx := st.chunk_idx, processedAt := st.processed,
                src_blocks := st.src_buf, tgt := st.tgt_buf,
                files := flush_chunk st.src_buf st.tgt_buf st.chunk_idx graph_uri }],
           filesTxt := if st.file_urls.isEmpty then none
             else some (String.intercalate "\n" st.file_urls) }

/-- The binary-resource entry a successful fetch with effective URI `q.2`
contributes: the suffix-stripped URI when the effective URI ends with
`/fcr:metadata`, nothing otherwise. -/
def binaryEntry (q : String × String) : Option String :=
  if pyEndsWith q.2 "/fcr:metadata" then some (q.2.dropRight "/fcr:metadata".length)
  else none

/-- An `ldp:contains` triple. -/
def containsTriple (parent child : String) : Triple :=
  ⟨Term.uri parent, Term.uri containsURI, Term.uri child⟩

/-- An ordinary data triple with a literal object. -/
def leafTriple (subj val : String) : Triple :=
  ⟨Term.uri subj, Term.uri "http://ex/p", Term.lit val⟩

/-- Oracle for the chunking scenario (C4): a root containing four children,
each child carrying one data triple — five resources in total. -/
def d4 : String → Option (List Triple) := fun u =>
  if u == "http://h/repo/rest/R" then
    some [containsTriple u "http://h/repo/rest/R/1",
          containsTriple u "http://h/repo/rest/R/2",
          containsTriple u "http://h/repo/rest/R/3",
          containsTriple u "http://h/repo/rest/R/4"]
  else if u == "http://h/repo/rest/R/1" then some [leafTriple u "v1"]
  else if u == "http://h/repo/rest/R/2" then some [leafTriple u "v2"]
  else if u == "http://h/repo/rest/R/3" then some [leafTriple u "v3"]
  else if u == "http://h/repo/rest/R/4" then some [leafTriple u "v4"]
  else none

/-- Oracle for the empty-chunk scenario (C9): a root containing an RDF
resource `E` whose graph is empty and a resource `B` with one triple. -/
def d9 : String → Option (List Triple) := fun u =>
  if u == "http://h/repo/rest/R9" then
    some [containsTriple u "http://h/repo/rest/E",
          containsTriple u "http://h/repo/rest/B"]
  else if u == "http://h/repo/rest/E" then some []
  else if u == "http://h/repo/rest/B" then some [leafTriple u "v"]
  else none

/-- Oracle for the binary-detection counterexample (C6): the primary GET on
the seed URI — which itself already ends in `/fcr:metadata` — succeeds, so no
fallback ever happens. -/
def d6c : String → Option (List Triple) := fun u =>
  if u == "http://h/x/fcr:metadata" then some [] else none

/-- Oracle exercising the metadata fallback: the primary GET fails and the
`/fcr:metadata` retry succeeds. -/
def d6w : String → Option (List Triple) := fun u =>
  if u == "http://h/y/fcr:metadata" then some [] else none

/-- Oracle for the cyclic contains-relation (C10): every resource contains
itself. -/
def dcyc : String → Option (List Triple) := fun u => some [containsTriple u u]

/-- Oracle for the multiple-paths scenario (C10): `B` is reachable through
both `c1` and `c2`. -/
def d10 : String → Option (List Triple) := fun u =>
  if u == "http://h/repo/rest/D" then
    some [containsTriple u "http://h/repo/rest/D/c1",
          containsTriple u "http://h/repo/rest/D/c2"]
  else if u == "http://h/repo/rest/D/c1" then
    some [containsTriple u "http://h/repo/rest/D/B"]
  else if u == "http://h/repo/rest/D/c2" then
    some [containsTriple u "http://h/repo/rest/D/B"]
  else if u == "http://h/repo/rest/D/B" then some [leafTriple u "v"]
  else none

end ThesisWorkflow

namespace ThesisWorkflow

theorem apply_rules_append (rules : List Rule) (l1 l2 : List Triple) :
    apply_rules (l1 ++ l2) rules = apply_rules l1 rules ++ apply_rules l2 rules := by
  induction l1 with
  | nil => simp [apply_rules]
  | cons t ts ih => simp [apply_rules, ih]

theorem apply_rules_decomp (rules : List Rule) (pre post : List Triple) (t : Triple) :
    apply_rules (pre ++ t :: post) rules =
      apply_rules pre rules ++ processTriple rules t ++ apply_rules post rules := by
  rw [apply_rules_append]
  simp [apply_rules]

/-- C1: rule-selection precedence. For a source triple not intercepted by the
filename special case, if at least one rule exact-matches (same predicate,
`object_equals` equal to the object's string form) then the triple's
contribution to `apply_rules` is exactly one expanded line per exact-matching
rule, and no object-agnostic rule fires; if no exact match exists, all
object-agnostic rules for the predicate fire instead. -/
theorem rule_precedence (rules : List Rule) (pre post : List Triple) (t : Triple)
    (h : intercepted t = false) :
    (exactMatches rules t.p.toStr t.o.toStr ≠ [] →
      apply_rules (pre ++ t :: post) rules =
        apply_rules pre rules
          ++ (exactMatches rules t.p.toStr t.o.toStr).map (expandRule t)
          ++ apply_rules post rules) ∧
    (exactMatches rules t.p.toStr t.o.toStr = [] →
      looseMatches rules t.p.toStr ≠ [] →
      apply_rules (pre ++ t :: post) rules =
        apply_rules pre rules
          ++ (looseMatches rules t.p.toStr).map (expandRule t)
          ++ apply_rules post rules) := by
  constructor
  · intro hex
    rw [apply_rules_decomp]
    have hpe : (exactMatches rules t.p.toStr t.o.toStr).isEmpty = false := by
      simpa [List.isEmpty_iff] using hex
    simp [processTriple, pickedLines, pickedRules, h, hpe]
  · intro hex hlo
    rw [apply_rules_decomp]
    have hpe : (exactMatches rules t.p.toStr t.o.toStr).isEmpty = true := by
      simp [List.isEmpty_iff, hex]
    have hle : (looseMatches rules t.p.toStr).isEmpty = false := by
      simpa [List.isEmpty_iff] using hlo
    simp [processTriple, pickedLines, pickedRules, h, hpe, hle]

theorem rule_precedence_witness :
    apply_rules ([] ++ t0 :: []) rules0 =
      apply_rules [] rules0
        ++ (exactMatches rules0 t0.p.toStr t0.o.toStr).map (expandRule t0)
        ++ apply_rules [] rules0 :=
  (rule_precedence rules0 [] [] t0 (by decide)).1 (by decide)

/-- C2: no silent drops. Every triple of the source graph contributes its
`processTriple` block to the transformer output, and that block is never
empty: two synthetic filename lines, one line per selected rule, or one
verbatim passthrough line. -/
theorem no_silent_drops (rules : List Rule) (pre post : List Triple) (t : Triple) :
    apply_rules (pre ++ t :: post) rules =
      apply_rules pre rules ++ processTriple rules t ++ apply_rules post rules ∧
    processTriple rules t ≠ [] := by
  refine ⟨apply_rules_decomp rules pre post t, ?_⟩
  cases hI : intercepted t with
  | true => simp [processTriple, hI, filenameLines]
  | false =>
    cases hp : (pickedRules rules t).isEmpty with
    | true => simp [processTriple, pickedLines, hI, hp]
    | false =>
      have hne : pickedRules rules t ≠ [] := by
        simpa [List.isEmpty_iff] using hp
      simp [processTriple, pickedLines, hI, hp, List.map_eq_nil_iff, hne]

theorem no_silent_drops_witness :
    apply_rules ([] ++ t0 :: []) [] =
      apply_rules [] [] ++ processTriple [] t0 ++ apply_rules [] [] ∧
    processTriple [] t0 ≠ [] :=
  no_silent_drops [] [] [] t0

/-- C3: filename-derivation determinism. A triple whose predicate is the
ebucore filename property and whose object is empty (the `intercepted` guard)
with subject `http://host/repo/rest/A/B/C.tif` contributes exactly two lines,
independent of the rule set: the flattened name `A!B!C.tif.jpg` bound to
`ex:PX_has_file_name` and the simple name `C.tif.jpg` bound to `rdfs:label`. -/
theorem filename_derivation (rules : List Rule) (o : Term)
    (h : intercepted ⟨Term.uri "http://host/repo/rest/A/B/C.tif",
                      Term.uri ebucoreFilenameURI, o⟩ = true) :
    processTriple rules ⟨Term.uri "http://host/repo/rest/A/B/C.tif",
                         Term.uri ebucoreFilenameURI, o⟩ =
      ["<http://host/repo/rest/A/B/C.tif> ex:PX_has_file_name \"A!B!C.tif.jpg\" .",
       "<http://host/repo/rest/A/B/C.tif> rdfs:label \"C.tif.jpg\" ."] := by
  unfold processTriple
  rw [h]
  exact rfl

theorem filename_derivation_witness :
    processTriple [] ⟨Term.uri "http://host/repo/rest/A/B/C.tif",
                      Term.uri ebucoreFilenameURI, Term.lit ""⟩ =
      ["<http://host/repo/rest/A/B/C.tif> ex:PX_has_file_name \"A!B!C.tif.jpg\" .",
       "<http://host/repo/rest/A/B/C.tif> rdfs:label \"C.tif.jpg\" ."] :=
  filename_derivation [] (Term.lit "") (by decide)

/-- C5, counterexample: loading a rule catalogue whose single rule lacks its
required predicate and template fields does NOT fail — `load_rules` succeeds
and returns the rule with `None` fields, contradicting the claim that such a
document fails with a ConfigError before the first transform. -/
theorem rule_validation_cex :
    load_rules docMissingFields = .ok [⟨none, none, none, none⟩] := rfl

/-- C5, amended: loading a document that lacks a rules collection fails (an
uncaught `KeyError`) and therefore aborts before any crawling, since `main`
calls `load_rules` before `crawl`; but a rule lacking its predicate or
template field is not validated at all — it is loaded with `None` fields and
the pipeline proceeds to crawling. -/
theorem rule_validation_amended :
    (∀ doc : RulesDoc, doc.rules = none → crawlReached doc = false) ∧
    crawlReached docMissingFields = true := by
  refine ⟨?_, rfl⟩
  intro doc h
  simp [crawlReached, load_rules, h]

theorem rule_validation_amended_witness :
    crawlReached ⟨(none : Option (List RawRule))⟩ = false :=
  rule_validation_amended.1 ⟨none⟩ rfl

/-- C7: once an item id is recorded in the per-run `_checked_items` cache
with value `False` — which is how "already has media" is recorded — any
`attach_media` call for that item id returns `"skipped"`, issues neither the
media-check request nor an upload request, and leaves the cache unchanged
(so every subsequent call in the same run behaves identically). -/
theorem media_skip (check : CheckOutcome) (fileExists : Bool) (uploadStatus : Nat)
    (cache : List (Nat × Bool)) (item_id : Nat)
    (h : cache.lookup item_id = some false) :
    attach_media check fileExists uploadStatus cache item_id =
      ⟨AttachResult.skipped, cache, false, false⟩ := by
  simp [attach_media, h]

theorem media_skip_witness :
    attach_media CheckOutcome.exn true 200 [(7, false)] 7 =
      ⟨AttachResult.skipped, [(7, false)], false, false⟩ :=
  media_skip CheckOutcome.exn true 200 [(7, false)] 7 rfl

theorem fieldAccum_spec (fs : List FieldSpec) :
    ∀ sp wp, fieldAccum fs (sp, wp) =
      (sp ++ fs.map specFieldSelect, wp ++ fs.filterMap specFieldWhere) := by
  induction fs with
  | nil => intro sp wp; simp [fieldAccum]
  | cons f fs ih =>
    intro sp wp
    rw [fieldAccum, ih]
    cases hw : f.whereParts with
    | none => simp [specFieldSelect, specFieldWhere, hw]
    | some ws =>
      cases hws : ws.isEmpty with
      | true => simp [specFieldSelect, specFieldWhere, hw, hws]
      | false =>
        cases hr : f.required with
        | true => simp [specFieldSelect, specFieldWhere, hw, hws, hr]
        | false => simp [specFieldSelect, specFieldWhere, hw, hws, hr]

/-- C8: query construction. For every Field-Mapping Spec the rendered string
is a `SELECT ... WHERE ... GROUP BY ... ORDER BY` query in which every field
contributes exactly one aliased select expression (in field order), and the
WHERE block consists of the root class pattern followed by one contribution
per field that declares a non-empty where-list — its patterns inline when
`required`, wrapped in an `OPTIONAL` block otherwise — while fields without
where-patterns contribute nothing. -/
theorem query_construction (rules : QueryRules) :
    build_sparql rules =
      String.intercalate "\n"
        (rules.prefixes.map (fun kv => "PREFIX " ++ kv.1 ++ ": <" ++ kv.2 ++ ">"))
      ++ "\n\nSELECT "
      ++ String.intercalate " "
           (rules.root.subject_var :: rules.fields.map specFieldSelect)
      ++ "\nWHERE \x7b\n  "
      ++ String.intercalate "\n  "
           ((rules.root.subject_var ++ " a " ++ rules.root.cls ++ " .")
             :: rules.fields.filterMap specFieldWhere)
      ++ "\n\x7d\nGROUP BY " ++ rules.root.subject_var
      ++ "\nORDER BY " ++ (rules.root.order_by.getD rules.root.subject_var) ++ "\n" := by
  rw [build_sparql]
  rw [fieldAccum_spec]
  simp

set_option maxRecDepth 100000 in
/-- C4: chunking discipline. With chunk size 2 and five successfully
processed resources (root plus four children, each contributing at least one
target triple), exactly three chunks are flushed: at processed counters 2, 4
and at crawl completion (5), so the chunk sizes in resources are 2, 2, 1 —
visible both in the counter values `[2, 4, 5]` and in the source-block
counts `[4, 4, 2]` (each resource contributes exactly two source blocks).
The chunk indices are `[1, 2, 3]`: monotonically increasing from 1, none
reused, each flushed exactly once. Every flush writes its three files, and
for each index the `.trig` lines and the triples embedded in the `.rq`
INSERT statement are exactly that chunk's target triples. -/
theorem chunking_discipline :
    (match crawl d4 "http://h/repo/rest" "R" [] 2 0 "http://g/ng" 10 with
     | none => false
     | some res =>
       res.events.map (fun e => e.idx) == [1, 2, 3] &&
       res.events.map (fun e => e.processedAt) == [2, 4, 5] &&
       res.events.map (fun e => e.src_blocks.length) == [4, 4, 2] &&
       res.events.map (fun e => e.tgt.length) == [5, 2, 1] &&
       res.events.all (fun e =>
         e.files.map (fun f => f.1) ==
           ["source-" ++ zeroPad3 e.idx ++ ".ttl",
            "dataset-" ++ zeroPad3 e.idx ++ ".trig",
            "insert-" ++ zeroPad3 e.idx ++ ".rq"] &&
         match e.files with
         | [_, (_, trig), (_, rq)] =>
             pySplit trig "\n" == e.tgt && embeddedTriples rq == e.tgt
         | _ => false)) = true := by
  decide

set_option maxRecDepth 100000 in
/-- C9: empty-chunk boundary behaviour. `flush_chunk` with an empty target
buffer writes no files whatever the source buffer holds (first conjunct);
in a run with chunk size 1 where resource `E` yields an empty graph, the
boundary flush at processed counter 2 is called with a non-empty source
buffer and an empty target buffer and writes nothing, yet the buffers are
cleared and the chunk index advances, so the written chunk files have the
non-contiguous indices 1 and 3 and `E`'s buffered source text appears in no
written file. -/
theorem empty_chunk_boundary :
    (∀ (src_blocks : List String) (idx : Nat) (g : String),
       flush_chunk src_blocks [] idx g = []) ∧
    (match crawl d9 "http://h/repo/rest" "R9" [] 1 0 "http://g/ng" 10 with
     | none => false
     | some res =>
       res.events.map (fun e => e.idx) == [1, 2, 3, 4] &&
       (match res.events with
        | [e1, e2, e3, e4] =>
          !e1.files.isEmpty &&
          e2.files.isEmpty && e2.tgt.isEmpty && !e2.src_blocks.isEmpty &&
          !e3.files.isEmpty && e4.files.isEmpty &&
          ((res.events.filter (fun e => !e.files.isEmpty)).map (fun e => e.idx)
            == [1, 3]) &&
          res.events.all (fun e => e.files.all (fun f =>
            (pySplit f.2 "# Source 👉 http://h/repo/rest/E").length == 1))
        | _ => false)) = true := by
  exact ⟨fun _ _ _ => rfl, by decide⟩

theorem cyc_step_queue_ne (uri : String) (rest : List String) (st : CrawlState) :
    (crawlStep dcyc [] 10 "http://g/ng" uri rest st).queue ≠ [] := by
  simp only [crawlStep, fetch_rdf, dcyc, containsTriple]
  split <;> simp

theorem cyc_loop_none :
    ∀ (fuel : Nat) (st : CrawlState), st.queue ≠ [] →
      crawlLoop dcyc [] 10 "http://g/ng" 0 fuel st = none := by
  intro fuel
  induction fuel with
  | zero =>
    intro st h
    rw [crawlLoop]
    cases hq : st.queue with
    | nil => exact absurd hq h
    | cons u r => simp
  | succ fuel ih =>
    intro st h
    rw [crawlLoop]
    cases hq : st.queue with
    | nil => exact absurd hq h
    | cons u r =>
      simp only [beq_self_eq_true, Bool.true_or, if_true]
      exact ih _ (cyc_step_queue_ne u r st)

/-- C10: no visited-URI set. First conjunct: with a cyclic contains-relation
(every resource contains itself) and `max_resources = 0`, the crawl loop is
still running whatever fuel it is given — it never terminates. Second
conjunct: a URI reachable through two distinct contains-edges is fetched and
counted once per occurrence — in the diamond scenario `B` is fetched twice,
the processed counter reaches 5 for the 4 distinct resources, and `B`'s
passthrough line appears twice in the flushed target triples. -/
theorem no_visited_set :
    (∀ fuel : Nat,
       crawl dcyc "http://h" "A" [] 10 0 "http://g/ng" fuel = none) ∧
    (match crawl d10 "http://h/repo/rest" "D" [] 10 0 "http://g/ng" 10 with
     | none => false
     | some res =>
       res.processed == 5 &&
       res.fetched.map (fun q => q.1) ==
         ["http://h/repo/rest/D", "http://h/repo/rest/D/c1",
          "http://h/repo/rest/D/c2", "http://h/repo/rest/D/B",
          "http://h/repo/rest/D/B"] &&
       (match res.events with
        | [e] =>
          e.tgt.count (passthroughLine (leafTriple "http://h/repo/rest/D/B" "v"))
            == 2
        | _ => false)) = true := by
  constructor
  · intro fuel
    rw [crawl]
    rw [cyc_loop_none fuel (initState "http://h" "A") (by simp [initState])]
  · decide

theorem pyEndsWith_append (x y : String) : pyEndsWith (x ++ y) y = true := by
  simp only [pyEndsWith, String.data_append, List.isSuffixOf_iff_suffix]
  exact ⟨x.data, rfl⟩

/-- C6, counterexample: a crawled resource fetched WITHOUT the
metadata-endpoint fallback (the primary download of the seed succeeds, as
the first conjunct and the recorded `(requested, effective)` pair show) still
contributes an entry to the binary-resource list, because its own URI
already ends with `/fcr:metadata` — refuting "resources fetched without the
fallback contribute no entry". -/
theorem binary_detection_cex :
    (d6c "http://h/x/fcr:metadata").isSome = true ∧
    (match crawl d6c "http://h" "x/fcr:metadata" [] 10 0 "http://g/ng" 5 with
     | none => false
     | some res =>
       res.file_urls == ["http://h/x"] &&
       res.fetched == [("http://h/x/fcr:metadata", "http://h/x/fcr:metadata")]) = true := by
  exact ⟨rfl, by decide⟩

theorem crawlStep_binary (download : String → Option (List Triple))
    (rules : List Rule) (chunk : Nat) (graph_uri uri : String)
    (rest : List String) (st : CrawlState)
    (h : st.file_urls = st.fetched.filterMap binaryEntry) :
    (crawlStep download rules chunk graph_uri uri rest st).file_urls
      = (crawlStep download rules chunk graph_uri uri rest st).fetched.filterMap
          binaryEntry := by
  cases hf : fetch_rdf download uri with
  | none => simp [crawlStep, hf, h]
  | some p =>
    obtain ⟨g, f⟩ := p
    cases he : pyEndsWith f "/fcr:metadata" <;>
      by_cases hm : (st.processed + 1) % chunk = 0 <;>
        simp [crawlStep, hf, he, hm, h, List.filterMap_append, List.filterMap_cons,
          binaryEntry]

theorem crawlLoop_binary (download : String → Option (List Triple))
    (rules : List Rule) (chunk : Nat) (graph_uri : String) (max_res : Nat) :
    ∀ (fuel : Nat) (st st' : CrawlState),
      st.file_urls = st.fetched.filterMap binaryEntry →
      crawlLoop download rules chunk graph_uri max_res fuel st = some st' →
      st'.file_urls = st'.fetched.filterMap binaryEntry := by
  intro fuel
  induction fuel with
  | zero =>
    intro st st' h hl
    cases hq : st.queue with
    | nil =>
      simp only [crawlLoop, hq] at hl
      obtain rfl : st = st' := by simpa using hl
      exact h
    | cons u r =>
      simp only [crawlLoop, hq] at hl
      split at hl
      · exact absurd hl (by simp)
      · obtain rfl : st = st' := by simpa using hl
        exact h
  | succ fuel ih =>
    intro st st' h hl
    cases hq : st.queue with
    | nil =>
      simp only [crawlLoop, hq] at hl
      obtain rfl : st = st' := by simpa using hl
      exact h
    | cons u r =>
      simp only [crawlLoop, hq] at hl
      split at hl
      · exact ih _ _ (crawlStep_binary download rules chunk graph_uri u r st h) hl
      · obtain rfl : st = st' := by simpa using hl
        exact h

/-- C6, amended: every crawled resource whose EFFECTIVE fetch URI ends with
`/fcr:metadata` contributes exactly one entry to the binary-resource list —
the effective URI with the suffix stripped — and resources whose effective
URI lacks the suffix contribute none (first conjunct: the list equals the
per-fetch `filterMap`); and whenever the metadata fallback occurred (the
primary download failed but the fetch succeeded), the effective URI does end
with the suffix, so every fallback fetch is recorded (second conjunct). A
resource fetched without the fallback is recorded iff its own URI already
ends with the suffix. -/
theorem binary_detection_amended (download : String → Option (List Triple))
    (base root : String) (rules : List Rule) (chunk max_res : Nat)
    (graph_uri : String) (fuel : Nat) :
    (∀ res : CrawlResult,
       crawl download base root rules chunk max_res graph_uri fuel = some res →
       res.file_urls = res.fetched.filterMap binaryEntry) ∧
    (∀ (uri : String) (g : List Triple) (f : String),
       download uri = none →
       fetch_rdf download uri = some (g, f) →
       pyEndsWith f "/fcr:metadata" = true) := by
  constructor
  · intro res hres
    rw [crawl] at hres
    cases hcl : crawlLoop download rules chunk graph_uri max_res fuel
        (initState base root) with
    | none => rw [hcl] at hres; exact absurd hres (by simp)
    | some st =>
      rw [hcl] at hres
      injection hres with he
      have hst : st.file_urls = st.fetched.filterMap binaryEntry :=
        crawlLoop_binary download rules chunk graph_uri max_res fuel
          (initState base root) st (by simp [initState]) hcl
      rw [← he]
      exact hst
  · intro uri g f hd hf
    simp only [fetch_rdf, hd] at hf
    split at hf
    · exact absurd hf (by simp)
    · cases halt : download (pyRstrip uri '/' ++ "/fcr:metadata") with
      | none => simp [halt] at hf
      | some g' =>
        simp only [halt, Option.some.injEq, Prod.mk.injEq] at hf
        obtain ⟨-, hfe⟩ := hf
        rw [← hfe]
        exact pyEndsWith_append (pyRstrip uri '/') "/fcr:metadata"

theorem binary_detection_amended_witness :
    ((crawl d6c "http://h" "x/fcr:metadata" [] 10 0 "http://g/ng" 5).getD
        ⟨0, 0, [], [], [], none⟩).file_urls =
      ((crawl d6c "http://h" "x/fcr:metadata" [] 10 0 "http://g/ng" 5).getD
        ⟨0, 0, [], [], [], none⟩).fetched.filterMap binaryEntry ∧
    pyEndsWith "http://h/y/fcr:metadata" "/fcr:metadata" = true :=
  ⟨(binary_detection_amended d6c "http://h" "x/fcr:metadata" [] 10 0 "http://g/ng" 5).1
      _ (by rfl),
   (binary_detection_amended d6w "" "" [] 1 0 "" 0).2
      "http://h/y" [] "http://h/y/fcr:metadata" rfl (by decide)⟩

end ThesisWorkflow
